import Mathlib

/-!
Verification of the NBT (named binary tag) codec crate against its
specification.  The development shallowly embeds the crate's live modules
(`kind.rs`, `writer.rs`, `de.rs`, `ser.rs`) as executable Lean functions over
byte streams (`List Nat`, each element `< 256`).  Rust `i8/i16/i32/i64` are
`Int` with explicit reduction modulo `2^w`; `f32/f64` are carried as their raw
big-endian bit patterns (`Nat`), which is faithful because the codec only
moves their bytes.  Rust `String` values are represented by their UTF-8 byte
sequences (`List Nat`); `String::len` is thus the list length.

Rust panics (`unreachable!`, `Result::unwrap` on `Err`) are modelled by a
distinct `PRes.panic` outcome, kept apart from error returns (`PRes.err`).
The recursive serde-driven engines are given explicit fuel; running out of
fuel is the separate outcome `PRes.fuel` (resp. an `NBTError.Message "fuel"`
on the encode side), which never occurs at the fuel bounds the wrappers use.
-/

/-- The 13 wire tag kinds, mirroring `NBTKind` in `src/kind.rs`. -/
inductive NBTKind where
  | End
  | Byte
  | Short
  | Int
  | Long
  | Float
  | Double
  | ByteArray
  | String
  | List
  | Compound
  | IntArray
  | LongArray
deriving DecidableEq, Repr

/-- Mirrors `NBTKind::header_byte` in `src/kind.rs`. -/
def NBTKind.headerByte : NBTKind → Nat
  | .End => 0
  | .Byte => 1
  | .Short => 2
  | .Int => 3
  | .Long => 4
  | .Float => 5
  | .Double => 6
  | .ByteArray => 7
  | .String => 8
  | .List => 9
  | .Compound => 10
  | .IntArray => 11
  | .LongArray => 12

/-- Mirrors `impl From<u8> for NBTKind` in `src/kind.rs`.  The Rust match has
an `unreachable!` arm for every byte outside `0..=12`; reaching it aborts the
process (a panic), which we model by `none`.  There is no error return on
this path in the source. -/
def NBTKind.fromByte : Nat → Option NBTKind
  | 0 => some .End
  | 1 => some .Byte
  | 2 => some .Short
  | 3 => some .Int
  | 4 => some .Long
  | 5 => some .Float
  | 6 => some .Double
  | 7 => some .ByteArray
  | 8 => some .String
  | 9 => some .List
  | 10 => some .Compound
  | 11 => some .IntArray
  | 12 => some .LongArray
  | _ => none

/-- The thirteen kinds in discriminant order. -/
def allKinds : List NBTKind :=
  [.End, .Byte, .Short, .Int, .Long, .Float, .Double, .ByteArray, .String,
   .List, .Compound, .IntArray, .LongArray]

/-- Modelled from the spec: the crate's `Error` enum.  `lib.rs` re-exports
`error::{Error, Result}` and `de.rs`/`ser.rs` construct the variants below,
but the provided `src/error.rs` is a stale serde-tutorial template
(`NBTError` with JSON-oriented variants) that does not declare them; the
variant list follows the spec's §7 taxonomy together with the constructor
uses visible in `de.rs` and `ser.rs` (`MismatchedTag(received, expected)`
carries kinds, `ExpectedBooleanByte` carries the offending `i8`,
`Message` covers serde `custom` errors such as visitor type mismatches). -/
inductive NBTError where
  | Message (s : String)
  | Eof
  | ExpectedRootCompound
  | InvalidTagId
  | MismatchedTag (received : NBTKind) (expected : NBTKind)
  | ExpectedBooleanByte (value : Int)
  | Unrepresentable
deriving DecidableEq, Repr

/-- Outcome of a parsing step over a byte stream: a value plus the remaining
bytes, an error return, a Rust panic, or fuel exhaustion of the model. -/
inductive PRes (α : Type) where
  | ok (a : α) (rest : List Nat)
  | err (e : NBTError)
  | panic
  | fuel

/-- Sequencing for `PRes`: propagate errors, panics and fuel exhaustion. -/
def PRes.step {α β : Type} : PRes α → (α → List Nat → PRes β) → PRes β
  | .ok a rest, f => f a rest
  | .err e, _ => .err e
  | .panic, _ => .panic
  | .fuel, _ => .fuel

/-- Whether the outcome is a success. -/
def PRes.isOk {α : Type} : PRes α → Bool
  | .ok _ _ => true
  | _ => false

/-! ### Sign conversions between raw unsigned words and Rust signed integers -/

/-- Reinterpret a byte as Rust `i8` (two's complement). -/
def toI8 (b : Nat) : Int := if b < 128 then (b : Int) else (b : Int) - 256

/-- Reinterpret a 16-bit word as Rust `i16`. -/
def toI16 (n : Nat) : Int := if n < 32768 then (n : Int) else (n : Int) - 65536

/-- Reinterpret a 32-bit word as Rust `i32`. -/
def toI32 (n : Nat) : Int :=
  if n < 2147483648 then (n : Int) else (n : Int) - 4294967296

/-- Reinterpret a 64-bit word as Rust `i64`. -/
def toI64 (n : Nat) : Int :=
  if n < 9223372036854775808 then (n : Int)
  else (n : Int) - 18446744073709551616

/-! ### Big-endian writers (`src/writer.rs`) -/

/-- Big-endian bytes of a 16-bit word. -/
def u16be (n : Nat) : List Nat := [n / 256 % 256, n % 256]

/-- Big-endian bytes of a 32-bit word. -/
def u32be (n : Nat) : List Nat :=
  [n / 16777216 % 256, n / 65536 % 256, n / 256 % 256, n % 256]

/-- Big-endian bytes of a 64-bit word. -/
def u64be (n : Nat) : List Nat :=
  [n / 72057594037927936 % 256, n / 281474976710656 % 256,
   n / 1099511627776 % 256, n / 4294967296 % 256,
   n / 16777216 % 256, n / 65536 % 256, n / 256 % 256, n % 256]

/-- Mirrors `Writer::write_i8`: the two's-complement byte of an `i8`. -/
def i8be (v : Int) : List Nat := [(v % 256).toNat]

/-- Mirrors `Writer::write_i16` (big-endian two's complement). -/
def i16be (v : Int) : List Nat := u16be (v % 65536).toNat

/-- Mirrors `Writer::write_i32` (big-endian two's complement). -/
def i32be (v : Int) : List Nat := u32be (v % 4294967296).toNat

/-- Mirrors `Writer::write_i64` (big-endian two's complement). -/
def i64be (v : Int) : List Nat := u64be (v % 18446744073709551616).toNat

/-- Mirrors `Writer::write_string` in `src/writer.rs`: the length prefix is
`string.len() as u16`, i.e. the byte length reduced modulo `2^16`, followed
by every byte of the string (the sink is a `Vec`, so the inner
`io::Write::write` call writes all bytes). -/
def writeString (s : List Nat) : List Nat := u16be (s.length % 65536) ++ s

/-- Mirrors `DelayedHeader` in `src/writer.rs`: the pending header suffix a
parent hands to the child being serialized. -/
inductive DelayedHeader where
  | MapKey (name : List Nat)
  | List (length : Nat)

/-- Mirrors `Writer::write_tag_header`: the kind byte, then the pending
suffix if one was supplied (field name, or list length as `length as i32`). -/
def writeTagHeader (k : NBTKind) (dh : Option DelayedHeader) : List Nat :=
  k.headerByte ::
    match dh with
    | none => []
    | some (.MapKey name) => writeString name
    | some (.List len) => u32be (len % 4294967296)

/-! ### Primitive readers (`NBTDeserializer::parse_*` in `src/de.rs`) -/

/-- Read one byte (`read_u8`); short input is an I/O EOF error. -/
def readU8 : List Nat → PRes Nat
  | [] => .err .Eof
  | b :: r => .ok b r

/-- Read exactly `n` bytes (`read_exact`); short input is an EOF error. -/
def readN : Nat → List Nat → PRes (List Nat)
  | 0, r => .ok [] r
  | _ + 1, [] => .err .Eof
  | n + 1, b :: r => (readN n r).step (fun bs rest => .ok (b :: bs) rest)

/-- Read a big-endian `u16`. -/
def parseU16 : List Nat → PRes Nat
  | b0 :: b1 :: r => .ok (b0 * 256 + b1) r
  | _ => .err .Eof

/-- Read a big-endian 32-bit word. -/
def parseU32 : List Nat → PRes Nat
  | b0 :: b1 :: b2 :: b3 :: r =>
    .ok (b0 * 16777216 + b1 * 65536 + b2 * 256 + b3) r
  | _ => .err .Eof

/-- Read a big-endian 64-bit word. -/
def parseU64 : List Nat → PRes Nat
  | b0 :: b1 :: b2 :: b3 :: b4 :: b5 :: b6 :: b7 :: r =>
    .ok (b0 * 72057594037927936 + b1 * 281474976710656 + b2 * 1099511627776 +
         b3 * 4294967296 + b4 * 16777216 + b5 * 65536 + b6 * 256 + b7) r
  | _ => .err .Eof

/-- Mirrors `parse_i8`. -/
def parseI8 (bytes : List Nat) : PRes Int :=
  (readU8 bytes).step (fun b r => .ok (toI8 b) r)

/-- Mirrors `parse_i16`. -/
def parseI16 (bytes : List Nat) : PRes Int :=
  (parseU16 bytes).step (fun n r => .ok (toI16 n) r)

/-- Mirrors `parse_i32`. -/
def parseI32 (bytes : List Nat) : PRes Int :=
  (parseU32 bytes).step (fun n r => .ok (toI32 n) r)

/-- Mirrors `parse_i64`. -/
def parseI64 (bytes : List Nat) : PRes Int :=
  (parseU64 bytes).step (fun n r => .ok (toI64 n) r)

/-- Mirrors `parse_f32`; the payload is kept as its raw bit pattern. -/
def parseF32 (bytes : List Nat) : PRes Nat := parseU32 bytes

/-- Mirrors `parse_f64`; the payload is kept as its raw bit pattern. -/
def parseF64 (bytes : List Nat) : PRes Nat := parseU64 bytes

/-- Mirrors `parse_kind` in `src/de.rs`: read one byte and convert through
`NBTKind::from`, whose out-of-range arm is an `unreachable!` panic. -/
def parseKind (bytes : List Nat) : PRes NBTKind :=
  (readU8 bytes).step (fun b r =>
    match NBTKind.fromByte b with
    | some k => .ok k r
    | none => .panic)

/-- Whether a byte lies in the inclusive range `lo..=hi`. -/
def inRange (lo hi b : Nat) : Bool := decide (lo ≤ b) && decide (b ≤ hi)

/-- Whether a byte is a UTF-8 continuation byte (`0x80..=0xBF`). -/
def isCont (b : Nat) : Bool := inRange 128 191 b

/-- Standard UTF-8 validation as performed by Rust `String::from_utf8`
(rejecting overlong forms, surrogates and values above `0x10FFFF`). -/
def validUtf8 : List Nat → Bool
  | [] => true
  | b :: rest =>
    if b ≤ 127 then validUtf8 rest
    else if b ≤ 193 then false
    else if b ≤ 223 then
      match rest with
      | c1 :: r => isCont c1 && validUtf8 r
      | [] => false
    else if b ≤ 239 then
      match rest with
      | c1 :: c2 :: r =>
        (if b = 224 then inRange 160 191 c1
         else if b = 237 then inRange 128 159 c1
         else isCont c1) && isCont c2 && validUtf8 r
      | _ => false
    else if b ≤ 244 then
      match rest with
      | c1 :: c2 :: c3 :: r =>
        (if b = 240 then inRange 144 191 c1
         else if b = 244 then inRange 128 143 c1
         else isCont c1) && isCont c2 && isCont c3 && validUtf8 r
      | _ => false
    else false

/-- Mirrors `parse_string` in `src/de.rs`: a `u16` big-endian length prefix,
then that many bytes passed to `String::from_utf8(..).unwrap()` — the
`unwrap` turns invalid UTF-8 into a panic, not an error return. -/
def parseString (bytes : List Nat) : PRes (List Nat) :=
  (parseU16 bytes).step (fun len r =>
    (readN len r).step (fun bs rest =>
      if validUtf8 bs then .ok bs rest else .panic))

/-! ### The encode engine (`src/ser.rs`)

`SVal` is the universe of caller values the encoder receives through serde:
signed integers, floats (as bit patterns), booleans, strings, derived
structs (`rec`), generic sequences (`seq`), and the three annotated arrays
produced by the `byte_array` / `int_array` / `long_array` helpers (which call
`serialize_tuple_struct` with the matching sentinel name; their iterator
size-hint check is exact for the concrete vectors used here). -/
inductive SVal where
  | i8 (v : Int)
  | i16 (v : Int)
  | i32 (v : Int)
  | i64 (v : Int)
  | f32 (bits : Nat)
  | f64 (bits : Nat)
  | bool (b : Bool)
  | str (s : List Nat)
  | record (fields : List (List Nat × SVal))
  | seq (elems : List SVal)
  | byteArr (elems : List Int)
  | intArr (elems : List Int)
  | longArr (elems : List Int)

/-- Mirrors `serialize_tuple_struct`'s count emission in `src/ser.rs`: a
length-0 array first writes an `End` tag header, then the `i32` count `0`;
otherwise the count `len as i32`. -/
def arrayCount (len : Nat) : List Nat :=
  if len = 0 then writeTagHeader .End none ++ i32be 0
  else u32be (len % 4294967296)

mutual

/-- Mirrors `NBTSerializerImpl` (non-root positions) in `src/ser.rs`.
`dh` is the serializer's `deferred_header`, `skip` its `skip_header` flag.
Faithful points to note against the source:
`serialize_i8` (and `serialize_bool`, which forwards to it) routes through
`NBTSerializerImpl::write` and therefore honours `skip_header`, while
`serialize_i16/i32/i64/f32/f64/str`, `serialize_struct`, `serialize_tuple`
and `serialize_tuple_struct` call `write_tag_header` directly and ignore it;
`serialize_i64` writes the `NBTKind::List` header byte; a sequence keeps its
`DelayedHeader::List` for every element (the field is `Copy` and never
cleared); an annotated array of length `0` writes an `End` header byte
before its `i32` count. -/
def serializeValueF : Nat → SVal → Option DelayedHeader → Bool →
    Except NBTError (List Nat)
  | 0, _, _, _ => .error (.Message "fuel")
  | _ + 1, .i8 v, dh, skip =>
    .ok ((if skip then [] else writeTagHeader .Byte dh) ++ i8be v)
  | n + 1, .bool b, dh, skip =>
    serializeValueF n (.i8 (if b then 1 else 0)) dh skip
  | _ + 1, .i16 v, dh, _ => .ok (writeTagHeader .Short dh ++ i16be v)
  | _ + 1, .i32 v, dh, _ => .ok (writeTagHeader .Int dh ++ i32be v)
  | _ + 1, .i64 v, dh, _ => .ok (writeTagHeader .List dh ++ i64be v)
  | _ + 1, .f32 bits, dh, _ =>
    .ok (writeTagHeader .Float dh ++ u32be (bits % 4294967296))
  | _ + 1, .f64 bits, dh, _ =>
    .ok (writeTagHeader .Double dh ++ u64be (bits % 18446744073709551616))
  | _ + 1, .str s, dh, _ => .ok (writeTagHeader .String dh ++ writeString s)
  | n + 1, .record fields, dh, _ => do
    let body ← serializeFieldsF n fields
    .ok (writeTagHeader .Compound dh ++ body ++ writeTagHeader .End none)
  | n + 1, .seq elems, dh, _ =>
    if elems.length = 0 then
      .ok (writeTagHeader .List dh ++ writeTagHeader .End none ++ i32be 0)
    else do
      let body ← serializeElemsF n elems (some (.List elems.length)) false
      .ok (writeTagHeader .List dh ++ body)
  | n + 1, .byteArr elems, dh, _ => do
    let body ← serializeElemsF n (elems.map SVal.i8) none true
    .ok (writeTagHeader .ByteArray dh ++ arrayCount elems.length ++ body)
  | n + 1, .intArr elems, dh, _ => do
    let body ← serializeElemsF n (elems.map SVal.i32) none true
    .ok (writeTagHeader .IntArray dh ++ arrayCount elems.length ++ body)
  | n + 1, .longArr elems, dh, _ => do
    let body ← serializeElemsF n (elems.map SVal.i64) none true
    .ok (writeTagHeader .LongArray dh ++ arrayCount elems.length ++ body)

/-- Mirrors `NBTStructSerializer::serialize_field` iterated over the struct's
fields: each value is serialized with a pending `MapKey` suffix. -/
def serializeFieldsF : Nat → List (List Nat × SVal) → Except NBTError (List Nat)
  | 0, _ => .error (.Message "fuel")
  | _ + 1, [] => .ok []
  | n + 1, (name, v) :: rest => do
    let head ← serializeValueF n v (some (.MapKey name)) false
    let tail ← serializeFieldsF n rest
    .ok (head ++ tail)

/-- Mirrors `NBTSeqSerializer::serialize_element` iterated over a sequence:
every element is serialized with the serializer's (unchanged)
`deferred_header` and `skip_header`. -/
def serializeElemsF : Nat → List SVal → Option DelayedHeader → Bool →
    Except NBTError (List Nat)
  | 0, _, _, _ => .error (.Message "fuel")
  | _ + 1, [], _, _ => .ok []
  | n + 1, v :: rest, dh, skip => do
    let head ← serializeValueF n v dh skip
    let tail ← serializeElemsF n rest dh skip
    .ok (head ++ tail)

end

/-- Mirrors the root `NBTSerializer` in `src/ser.rs` (entry `to_bytes`):
struct/map roots emit the Compound header and an empty root name, then the
fields and the terminating `End`; scalar, string, sequence and
annotated-array roots fail with `ExpectedRootCompound`; `bool` (and the
other `unrepresentable!` shapes) fail with `Unrepresentable`.  The fuel
bound `1000` exceeds the nesting depth of every value considered here. -/
def serializeRoot : SVal → Except NBTError (List Nat)
  | .record fields => do
    let body ← serializeFieldsF 1000 fields
    .ok (writeTagHeader .Compound none ++ writeString [] ++ body ++
         writeTagHeader .End none)
  | .bool _ => .error .Unrepresentable
  | _ => .error .ExpectedRootCompound

/-! ### The decode engine (`src/de.rs`)

`Shape` is the target shape the caller's `Deserialize` implementation drives
the engine with: the primitive scalars, `bool`, strings, derived structs
(`struct` — named fields, serde-derive semantics: unknown keys are skipped
via `IgnoredAny`, duplicate or missing fields are errors), generic sequences
(`seq`), and `ignored` for `IgnoredAny` itself.  `Value` is the decoded
result.  Visitor type mismatches surface as serde `custom` errors, modelled
uniformly as `Message "invalid type"`; the integer targets accept any
integer visit that fits their range (serde's lossless `TryFrom` conversions),
modelled by `visitInt`.  Serde's lossy numeric casts between float widths
and from integers to floats are outside every claim considered here and are
modelled as a distinct `Message` error. -/
inductive Shape where
  | byte
  | short
  | int
  | long
  | float
  | double
  | bool
  | str
  | seq (elem : Shape)
  | struct (fields : List (List Nat × Shape))
  | ignored

/-- A decoded value. -/
inductive Value where
  | vByte (v : Int)
  | vShort (v : Int)
  | vInt (v : Int)
  | vLong (v : Int)
  | vFloat (bits : Nat)
  | vDouble (bits : Nat)
  | vBool (b : Bool)
  | vStr (s : List Nat)
  | vSeq (elems : List Value)
  | vRec (fields : List (List Nat × Value))
  | vIgnored

/-- Lift a visitor outcome back into the stream-carrying result. -/
def liftVisit (e : Except NBTError Value) (rest : List Nat) : PRes Value :=
  match e with
  | .ok v => .ok v rest
  | .error er => .err er

/-- Serde visitor dispatch for an integer visit (`visit_i8/i16/i32/i64`):
integer targets accept it when the value fits their range, `IgnoredAny`
accepts everything, and all other targets reject with an invalid-type
error. -/
def visitInt (s : Shape) (v : Int) : Except NBTError Value :=
  match s with
  | .byte => if -128 ≤ v ∧ v ≤ 127 then .ok (.vByte v)
             else .error (.Message "out of range")
  | .short => if -32768 ≤ v ∧ v ≤ 32767 then .ok (.vShort v)
              else .error (.Message "out of range")
  | .int => if -2147483648 ≤ v ∧ v ≤ 2147483647 then .ok (.vInt v)
            else .error (.Message "out of range")
  | .long => .ok (.vLong v)
  | .ignored => .ok .vIgnored
  | _ => .error (.Message "invalid type")

/-- Serde visitor dispatch for `visit_f32`.  The `f64` target's lossy
`as`-cast acceptance is not modelled (no claim exercises it). -/
def visitFloat32 (s : Shape) (bits : Nat) : Except NBTError Value :=
  match s with
  | .float => .ok (.vFloat bits)
  | .double => .error (.Message "float conversion not modelled")
  | .ignored => .ok .vIgnored
  | _ => .error (.Message "invalid type")

/-- Serde visitor dispatch for `visit_f64`. -/
def visitFloat64 (s : Shape) (bits : Nat) : Except NBTError Value :=
  match s with
  | .double => .ok (.vDouble bits)
  | .float => .error (.Message "float conversion not modelled")
  | .ignored => .ok .vIgnored
  | _ => .error (.Message "invalid type")

/-- Serde visitor dispatch for `visit_string`. -/
def visitStr (s : Shape) (str : List Nat) : Except NBTError Value :=
  match s with
  | .str => .ok (.vStr str)
  | .ignored => .ok .vIgnored
  | _ => .error (.Message "invalid type")

/-- Look up the declared shape of a field name. -/
def lookupShape (key : List Nat) : List (List Nat × Shape) → Option Shape
  | [] => none
  | (n, s) :: rest => if key = n then some s else lookupShape key rest

/-- Look up a collected field value. -/
def lookupVal (key : List Nat) : List (List Nat × Value) → Option Value
  | [] => none
  | (n, v) :: rest => if key = n then some v else lookupVal key rest

/-- Whether a field value has already been collected. -/
def hasKey (key : List Nat) (acc : List (List Nat × Value)) : Bool :=
  (lookupVal key acc).isSome

/-- Build the struct value in field-declaration order from the collected
entries; a field never seen is serde's missing-field error. -/
def assembleFields (fields : List (List Nat × Shape))
    (acc : List (List Nat × Value)) : Except NBTError (List (List Nat × Value)) :=
  match fields with
  | [] => .ok []
  | (n, _) :: rest =>
    match lookupVal n acc with
    | none => .error (.Message "missing field")
    | some v => do
      let tail ← assembleFields rest acc
      .ok ((n, v) :: tail)

mutual

/-- Mirrors `NBTDeserializerImpl` in `src/de.rs`: decoding one value whose
wire kind `k` was established by the enclosing context, into target shape
`s`.  `bool` targets use the explicit `deserialize_bool`; every other
target is forwarded to `deserialize_any`, which parses by the active kind
and then offers the parsed form to the target's visitor.  `List` payloads
read their element-kind byte and `i32` count in `from_list` before the
visitor is consulted; the array kinds read their count in `from_array`
likewise; the remaining kind (`End`) is the `InvalidTagId` arm. -/
def decodeValueF : Nat → Shape → NBTKind → List Nat → PRes Value
  | 0, _, _, _ => .fuel
  | n + 1, s, k, bytes =>
    match s with
    | .bool =>
      match k with
      | .Byte =>
        (parseI8 bytes).step (fun v r =>
          if v = 0 then .ok (.vBool false) r
          else if v = 1 then .ok (.vBool true) r
          else .err (.ExpectedBooleanByte v))
      | _ => .err (.MismatchedTag k .Byte)
    | _ =>
      match k with
      | .End => .err .InvalidTagId
      | .Byte => (parseI8 bytes).step (fun v r => liftVisit (visitInt s v) r)
      | .Short => (parseI16 bytes).step (fun v r => liftVisit (visitInt s v) r)
      | .Int => (parseI32 bytes).step (fun v r => liftVisit (visitInt s v) r)
      | .Long => (parseI64 bytes).step (fun v r => liftVisit (visitInt s v) r)
      | .Float =>
        (parseF32 bytes).step (fun bits r => liftVisit (visitFloat32 s bits) r)
      | .Double =>
        (parseF64 bytes).step (fun bits r => liftVisit (visitFloat64 s bits) r)
      | .String =>
        (parseString bytes).step (fun str r => liftVisit (visitStr s str) r)
      | .List =>
        (parseKind bytes).step (fun ek r1 =>
          (parseI32 r1).step (fun len r2 =>
            match s with
            | .seq e =>
              (decodeSeqElemsF n e ek len 0 r2).step
                (fun vs r3 => .ok (.vSeq vs) r3)
            | .ignored =>
              (decodeSeqElemsF n .ignored ek len 0 r2).step
                (fun _ r3 => .ok .vIgnored r3)
            | _ => .err (.Message "invalid type")))
      | .ByteArray => decodeArrayF n s .Byte bytes
      | .IntArray => decodeArrayF n s .Int bytes
      | .LongArray => decodeArrayF n s .Long bytes
      | .Compound =>
        match s with
        | .struct fs => decodeFieldsF n fs [] bytes
        | .ignored =>
          (decodeFieldsF n [] [] bytes).step (fun _ r => .ok .vIgnored r)
        | _ => .err (.Message "invalid type")

/-- Mirrors `NBTSeqDeserializer::from_array`: read the `i32` count, then run
the element loop with the fixed element kind `ek` and no per-element kind
bytes. -/
def decodeArrayF : Nat → Shape → NBTKind → List Nat → PRes Value
  | 0, _, _, _ => .fuel
  | n + 1, s, ek, bytes =>
    (parseI32 bytes).step (fun len r1 =>
      match s with
      | .seq e =>
        (decodeSeqElemsF n e ek len 0 r1).step (fun vs r2 => .ok (.vSeq vs) r2)
      | .ignored =>
        (decodeSeqElemsF n .ignored ek len 0 r1).step
          (fun _ r2 => .ok .vIgnored r2)
      | _ => .err (.Message "invalid type"))

/-- Mirrors `NBTSeqDeserializer::next_element_seed` driven by the sequence
visitor's loop: the loop stops when `current_pos == length` (an equality
test, so a negative declared length does not stop it) and otherwise decodes
the next element with the saved element kind. -/
def decodeSeqElemsF : Nat → Shape → NBTKind → Int → Int → List Nat →
    PRes (List Value)
  | 0, _, _, _, _, _ => .fuel
  | n + 1, e, k, len, pos, bytes =>
    if pos = len then .ok [] bytes
    else
      (decodeValueF n e k bytes).step (fun v r =>
        (decodeSeqElemsF n e k len (pos + 1) r).step
          (fun vs r2 => .ok (v :: vs) r2))

/-- Mirrors `NBTMapDeserializer` driven by a derived struct's map visitor:
read a kind byte; `End` finishes the struct; otherwise read the entry name
(always decoded as a string), decode the value at the matching field's
shape (saving the kind read before the name), skip unknown entries with
`IgnoredAny`, and reject duplicate fields. -/
def decodeFieldsF : Nat → List (List Nat × Shape) →
    List (List Nat × Value) → List Nat → PRes Value
  | 0, _, _, _ => .fuel
  | n + 1, fields, acc, bytes =>
    (parseKind bytes).step (fun k r1 =>
      match k with
      | .End =>
        match assembleFields fields acc with
        | .ok vals => .ok (.vRec vals) r1
        | .error e => .err e
      | _ =>
        (parseString r1).step (fun key r2 =>
          match lookupShape key fields with
          | some sh =>
            if hasKey key acc then .err (.Message "duplicate field")
            else
              (decodeValueF n sh k r2).step (fun v r3 =>
                decodeFieldsF n fields (acc ++ [(key, v)]) r3)
          | none =>
            (decodeValueF n .ignored k r2).step (fun _ r3 =>
              decodeFieldsF n fields acc r3)))

end

/-- Fuel bound used by the wrappers: every recursive call of the decode
family either terminates the run or is separated from the previous one by at
least one consumed input byte, so `2 * length + 16` calls always suffice. -/
def fuelFor (bytes : List Nat) : Nat := 2 * bytes.length + 16

/-- Decoding one value (kind already established) with the wrapper fuel. -/
def decodeValueTop (s : Shape) (k : NBTKind) (bytes : List Nat) : PRes Value :=
  decodeValueF (fuelFor bytes) s k bytes

/-- Mirrors the root `NBTDeserializer` (entry `from_slice`) in `src/de.rs`:
struct and map targets go through `deserialize_map`, which reads one kind
byte, fails with `ExpectedRootCompound` unless it is `Compound`, then reads
and discards the root's name string and decodes the root entries; every
other target shape is forwarded to the root `deserialize_any`, which always
fails with `ExpectedRootCompound`. -/
def decodeRoot (s : Shape) (bytes : List Nat) : PRes Value :=
  match s with
  | .struct fs =>
    (parseKind bytes).step (fun k r1 =>
      match k with
      | .Compound =>
        (parseString r1).step (fun _ r2 => decodeFieldsF (fuelFor r2) fs [] r2)
      | _ => .err .ExpectedRootCompound)
  | _ => .err .ExpectedRootCompound

/-- Raw encoding of a list of integers, element by element. -/
def encodeAll (f : Int → List Nat) : List Int → List Nat
  | [] => []
  | v :: rest => f v ++ encodeAll f rest

/-! ### Byte-level round-trip lemmas -/

theorem readN_append (l r : List Nat) : readN l.length (l ++ r) = .ok l r := by
  induction l with
  | nil => rfl
  | cons b t ih => simp [readN, ih, PRes.step]

theorem parseString_writeString (s r : List Nat) (hlen : s.length < 65536)
    (hv : validUtf8 s = true) : parseString (writeString s ++ r) = .ok s r := by
  have hm : s.length % 65536 = s.length := Nat.mod_eq_of_lt hlen
  have hval : s.length % 65536 / 256 % 256 * 256 + s.length % 65536 % 256
      = s.length := by omega
  simp only [parseString, writeString, u16be, List.cons_append, List.nil_append,
    parseU16, PRes.step, hval, readN_append, hv, if_true]

theorem parseI32_i32be (v : Int) (r : List Nat) (h1 : -2147483648 ≤ v)
    (h2 : v < 2147483648) : parseI32 (i32be v ++ r) = .ok v r := by
  have hmod : (0 : Int) ≤ v % 4294967296 ∧ v % 4294967296 < 4294967296 :=
    ⟨Int.emod_nonneg v (by norm_num), Int.emod_lt_of_pos v (by norm_num)⟩
  set m : Nat := (v % 4294967296).toNat with hm
  have hmv : (m : Int) = v % 4294967296 := by omega
  have hmlt : m < 4294967296 := by omega
  have hcomb : m / 16777216 % 256 * 16777216 + m / 65536 % 256 * 65536 +
      m / 256 % 256 * 256 + m % 256 = m := by omega
  simp only [i32be, u32be, ← hm, List.cons_append, List.nil_append, parseI32,
    parseU32, PRes.step, hcomb]
  have : toI32 m = v := by
    unfold toI32
    split <;> omega
  rw [this]

theorem encodeAll_i32be_length (es : List Int) :
    (encodeAll i32be es).length = 4 * es.length := by
  induction es with
  | nil => rfl
  | cons v t ih =>
    simp only [encodeAll, List.length_append, ih, List.length_cons]
    have : (i32be v).length = 4 := rfl
    omega

theorem decodeValueF_int (n : Nat) (v : Int) (r : List Nat)
    (h1 : -2147483648 ≤ v) (h2 : v < 2147483648) :
    decodeValueF (n + 1) .int .Int (i32be v ++ r) = .ok (.vInt v) r := by
  simp only [decodeValueF, parseI32_i32be v r h1 h2, PRes.step, liftVisit,
    visitInt]
  rw [if_pos ⟨h1, by omega⟩]

theorem decodeSeqElemsF_succ (n : Nat) (e : Shape) (k : NBTKind)
    (len pos : Int) (bytes : List Nat) :
    decodeSeqElemsF (n + 1) e k len pos bytes =
      if pos = len then .ok [] bytes
      else
        (decodeValueF n e k bytes).step (fun v r =>
          (decodeSeqElemsF n e k len (pos + 1) r).step
            (fun vs r2 => .ok (v :: vs) r2)) := rfl

theorem decodeSeqElemsF_ints (es : List Int) :
    ∀ (fuel : Nat) (pos : Int) (rest : List Nat),
      (∀ v ∈ es, -2147483648 ≤ v ∧ v < 2147483648) →
      es.length + 1 ≤ fuel →
      decodeSeqElemsF fuel .int .Int (pos + es.length) pos
          (encodeAll i32be es ++ rest)
        = .ok (es.map Value.vInt) rest := by
  induction es with
  | nil =>
    intro fuel pos rest _ hfuel
    obtain ⟨m, rfl⟩ : ∃ m, fuel = m + 1 := ⟨fuel - 1, by omega⟩
    simp [decodeSeqElemsF, encodeAll]
  | cons v t ih =>
    intro fuel pos rest hv hfuel
    obtain ⟨m', rfl⟩ : ∃ m', fuel = m' + 1 + 1 := by
      refine ⟨fuel - 2, ?_⟩
      simp only [List.length_cons] at hfuel
      omega
    have hposlen : pos + (List.length (v :: t) : Int)
        = (pos + 1) + (t.length : Int) := by
      simp only [List.length_cons]
      push_cast
      ring
    have hne : pos ≠ (pos + 1) + (t.length : Int) := by omega
    have hvr := hv v (List.mem_cons_self v t)
    have hstep := decodeValueF_int m' v (encodeAll i32be t ++ rest) hvr.1 hvr.2
    have hrec := ih (m' + 1) (pos + 1) rest
      (fun w hw => hv w (List.mem_cons_of_mem v hw))
      (by simp only [List.length_cons] at hfuel; omega)
    rw [show encodeAll i32be (v :: t) ++ rest
          = i32be v ++ (encodeAll i32be t ++ rest) by
        simp [encodeAll, List.append_assoc]]
    rw [hposlen, decodeSeqElemsF_succ, if_neg hne, hstep]
    simp only [PRes.step, hrec, List.map_cons]

/-! ### Claim theorems -/

set_option maxRecDepth 4000 in
/-- C2: the byte→kind conversion is bijective over discriminants 0..12, but
for every byte in 13..=255 `NBTKind::from` hits its `unreachable!` arm and
panics (modelled as `none`) instead of returning an `InvalidTagId` error
value as the claim states. -/
theorem c2_kind_conversion :
    (List.range 13).map NBTKind.fromByte = allKinds.map some
    ∧ allKinds.map NBTKind.headerByte = List.range 13
    ∧ ((List.range 256).drop 13).all (fun b => (NBTKind.fromByte b).isNone)
        = true := by
  decide

/-- C3: evaluating the scalar encoders at a field position.  An `i64` value
is emitted with the `List` kind byte `9`, not the `Long` kind byte `4` the
claim states (an `i32` value, shown for contrast, correctly gets kind byte
`3` followed by the pending `MapKey` suffix and the big-endian payload). -/
theorem c3_scalar_headers :
    serializeValueF 10 (SVal.i64 5) (some (.MapKey [120])) false
      = Except.ok (writeTagHeader .List (some (.MapKey [120])) ++ i64be 5)
    ∧ writeTagHeader .List (some (.MapKey [120])) ++ i64be 5
      = [9, 0, 1, 120, 0, 0, 0, 0, 0, 0, 0, 5]
    ∧ NBTKind.Long.headerByte = 4
    ∧ serializeValueF 10 (SVal.i32 5) (some (.MapKey [120])) false
      = Except.ok [3, 0, 1, 120, 0, 0, 0, 5] :=
  ⟨rfl, rfl, rfl, rfl⟩

/-- C4: evaluating the list decoder.  A declared count of exactly `0` yields
an empty sequence consuming nothing past the element-kind byte and the
count, but a negative count (`-1`, with declared element kind `End`) is not
treated as empty — the position/length comparison is an equality test, so
the decoder attempts an element and fails with `InvalidTagId` — and a
declared element-kind byte outside 0..12 (here 13) panics in the byte→kind
conversion instead of being accepted. -/
theorem c4_list_counts :
    decodeValueTop (.seq .byte) .List [0, 0, 0, 0, 0, 99] = .ok (.vSeq []) [99]
    ∧ decodeValueTop (.seq .byte) .List [0, 255, 255, 255, 255]
        = .err .InvalidTagId
    ∧ decodeValueTop (.seq .byte) .List [13, 255, 255, 255, 255] = .panic :=
  ⟨rfl, rfl, rfl⟩

/-- C5: evaluating the annotated-array encoders.  An `int_array` of `[1,2,3]`
emits a kind byte `3` before every element (and a `long_array` element even
gets the wrong kind byte `9`), because only `serialize_i8` honours
`skip_header`; an empty `byte_array` emits a stray `End` byte between the
array kind byte and the count.  A non-empty `byte_array` (shown for
contrast) matches the claimed raw layout. -/
theorem c5_array_bytes :
    serializeValueF 10 (SVal.intArr [1, 2, 3]) none false
      = Except.ok [11, 0, 0, 0, 3, 3, 0, 0, 0, 1, 3, 0, 0, 0, 2, 3, 0, 0, 0, 3]
    ∧ serializeValueF 10 (SVal.byteArr []) none false
      = Except.ok [7, 0, 0, 0, 0, 0]
    ∧ serializeValueF 10 (SVal.longArr [1]) none false
      = Except.ok [12, 0, 0, 0, 1, 9, 0, 0, 0, 0, 0, 0, 0, 1]
    ∧ serializeValueF 10 (SVal.byteArr [1, 2]) none false
      = Except.ok [7, 0, 0, 0, 2, 1, 2] :=
  ⟨rfl, rfl, rfl, rfl⟩

/-- C1: the round trip fails on a record with an `i64` field.  Encoding
`{x: 0i64}` emits the `List` kind byte `9` for the field (the
`serialize_i64` slip), so decoding the produced bytes back into the same
record shape parses a list header out of the `i64` payload and fails with
the serde invalid-type error instead of returning the original value. -/
theorem c1_roundtrip_fails_on_long :
    serializeRoot (SVal.record [([120], SVal.i64 0)])
      = Except.ok [10, 0, 0, 9, 0, 1, 120, 0, 0, 0, 0, 0, 0, 0, 0, 0]
    ∧ decodeRoot (Shape.struct [([120], Shape.long)])
        [10, 0, 0, 9, 0, 1, 120, 0, 0, 0, 0, 0, 0, 0, 0, 0]
      = .err (.Message "invalid type") :=
  ⟨rfl, rfl⟩

/-- C9: a length-prefixed string whose payload is not valid UTF-8 (here the
single byte `0xFF`) makes `parse_string` panic (the `String::from_utf8(..)
.unwrap()`), rather than return an error; a valid payload (shown for
contrast) is returned normally. -/
theorem c9_invalid_utf8 :
    parseString [0, 1, 255] = .panic ∧ parseString [0, 1, 65] = .ok [65] [] :=
  ⟨rfl, rfl⟩

/-- C6 counterexample: a stream whose first byte is `13` is not answered with
`ExpectedRootCompound` as the claim states for every non-Compound first
kind byte — the byte→kind conversion panics first. -/
theorem c6_counterexample :
    decodeRoot (Shape.struct []) [13] = .panic
    ∧ decodeRoot (Shape.struct []) [13] ≠ .err .ExpectedRootCompound :=
  ⟨rfl, fun h => nomatch h⟩

/-- C6 amended: for every first kind byte in 0..=12 other than 10 the root
decode fails with `ExpectedRootCompound` without reading past that byte
(the result does not depend on `rest`); when the first kind byte is 10 the
root name string is read and discarded and decoding continues with the root
entries. -/
theorem c6_amended :
    (∀ (b : Nat) (rest : List Nat) (fs : List (List Nat × Shape)),
        b ≤ 12 → b ≠ 10 →
        decodeRoot (.struct fs) (b :: rest) = .err .ExpectedRootCompound)
    ∧ (∀ (fs : List (List Nat × Shape)) (name rest : List Nat),
        validUtf8 name = true → name.length < 65536 →
        decodeRoot (.struct fs) (10 :: (writeString name ++ rest))
          = decodeFieldsF (fuelFor rest) fs [] rest) := by
  constructor
  · intro b rest fs hb hne
    interval_cases b <;> first | rfl | omega
  · intro fs name rest hv hlen
    simp only [decodeRoot, parseKind, readU8, NBTKind.fromByte, PRes.step,
      parseString_writeString name rest hlen hv]

/-- C6 witness: the amended theorem at the concrete first byte 9 and at a
Compound root with an empty name. -/
theorem c6_amended_witness :
    decodeRoot (Shape.struct []) [9] = .err .ExpectedRootCompound
    ∧ decodeRoot (Shape.struct []) (10 :: (writeString [] ++ []))
        = decodeFieldsF (fuelFor []) [] [] [] :=
  ⟨c6_amended.1 9 [] [] (by decide) (by decide),
   c6_amended.2 [] [] [] (by decide) (by decide)⟩

/-- C7: decoding into a boolean target.  With active kind `Byte` the payload
byte decides the result — `0` is `false`, `1` is `true`, anything else is
`ExpectedBooleanByte` carrying that exact byte (as the `i8` the code parsed)
— and with any other active kind the decode fails with
`MismatchedTag(received, Byte)` without consuming the payload. -/
theorem c7_bool_decode (fuel : Nat) (k : NBTKind) (b : Nat) (rest : List Nat)
    (hb : b < 256) :
    decodeValueF (fuel + 1) .bool k (b :: rest) =
      if k = .Byte then
        (if b = 0 then .ok (.vBool false) rest
         else if b = 1 then .ok (.vBool true) rest
         else .err (.ExpectedBooleanByte (toI8 b)))
      else .err (.MismatchedTag k .Byte) := by
  cases k <;> try rfl
  rw [if_pos (rfl : NBTKind.Byte = NBTKind.Byte)]
  have hL : decodeValueF (fuel + 1) .bool .Byte (b :: rest)
      = (if toI8 b = 0 then .ok (.vBool false) rest
         else if toI8 b = 1 then .ok (.vBool true) rest
         else .err (.ExpectedBooleanByte (toI8 b))) := rfl
  rw [hL]
  by_cases h0 : b = 0
  · subst h0
    simp [toI8]
  · have t0 : toI8 b ≠ 0 := by unfold toI8; split <;> omega
    rw [if_neg t0, if_neg h0]
    by_cases h1 : b = 1
    · subst h1
      simp [toI8]
    · have t1 : toI8 b ≠ 1 := by unfold toI8; split <;> omega
      rw [if_neg t1, if_neg h1]

/-- C7 witness: the theorem at a non-Byte kind and at a Byte payload of 7. -/
theorem c7_bool_decode_witness :
    decodeValueF 1 .bool .Int [7] = .err (.MismatchedTag .Int .Byte)
    ∧ decodeValueF 1 .bool .Byte [7] = .err (.ExpectedBooleanByte 7) := by
  constructor
  · simpa using c7_bool_decode 0 .Int 7 [] (by decide)
  · simpa [toI8] using c7_bool_decode 0 .Byte 7 [] (by decide)

/-- C8 counterexample: an `IntArray` payload with count 1 and element 5
decodes into a generic sequence-of-int target successfully — it is not
rejected as the claim states. -/
theorem c8_counterexample :
    decodeValueTop (.seq .int) .IntArray [0, 0, 0, 1, 0, 0, 0, 5]
      = .ok (.vSeq [.vInt 5]) []
    ∧ (decodeValueTop (.seq .int) .IntArray [0, 0, 0, 1, 0, 0, 0, 5]).isOk
        = true :=
  ⟨rfl, rfl⟩

/-- Generic-fuel form of the amended C8 statement. -/
theorem decodeArray_ints_general (es : List Int) (rest : List Nat)
    (fuel : Nat) (hv : ∀ v ∈ es, -2147483648 ≤ v ∧ v < 2147483648)
    (hn : es.length < 2147483648) (hfuel : es.length + 3 ≤ fuel) :
    decodeValueF fuel (.seq .int) .IntArray
        (i32be es.length ++ (encodeAll i32be es ++ rest))
      = .ok (.vSeq (es.map Value.vInt)) rest := by
  obtain ⟨m, rfl⟩ : ∃ m, fuel = m + 1 + 1 := ⟨fuel - 2, by omega⟩
  have h1 : decodeValueF (m + 1 + 1) (.seq .int) .IntArray
        (i32be es.length ++ (encodeAll i32be es ++ rest))
      = decodeArrayF (m + 1) (.seq .int) .Int
        (i32be es.length ++ (encodeAll i32be es ++ rest)) := rfl
  have h2 : decodeArrayF (m + 1) (.seq .int) .Int
        (i32be es.length ++ (encodeAll i32be es ++ rest))
      = (parseI32 (i32be es.length ++ (encodeAll i32be es ++ rest))).step
          (fun len r1 =>
            (decodeSeqElemsF m .int .Int len 0 r1).step
              (fun vs r2 => .ok (.vSeq vs) r2)) := rfl
  have h3 := parseI32_i32be (es.length : Int) (encodeAll i32be es ++ rest)
    (by omega) (by omega)
  have h4 := decodeSeqElemsF_ints es m 0 rest hv (by omega)
  rw [zero_add] at h4
  rw [h1, h2, h3]
  simp only [PRes.step, h4]

/-- C8 amended: decoding an `IntArray` wire payload (i32 count, then that
many raw big-endian i32 elements with no per-element kind bytes) into a
generic sequence-of-int target succeeds with exactly those elements — array
kinds are accepted by sequence targets on decode. -/
theorem c8_amended (es : List Int) (rest : List Nat)
    (hv : ∀ v ∈ es, -2147483648 ≤ v ∧ v < 2147483648)
    (hn : es.length < 2147483648) :
    decodeValueTop (.seq .int) .IntArray
        (i32be es.length ++ (encodeAll i32be es ++ rest))
      = .ok (.vSeq (es.map Value.vInt)) rest := by
  have hlen : (i32be (es.length : Int) ++ (encodeAll i32be es ++ rest)).length
      = 4 + (4 * es.length + rest.length) := by
    simp [i32be, u32be, List.length_append, encodeAll_i32be_length]
    omega
  unfold decodeValueTop fuelFor
  exact decodeArray_ints_general es rest _ hv hn (by omega)

/-- C8 witness: the amended theorem at the one-element array `[7]`. -/
theorem c8_amended_witness :
    decodeValueTop (.seq .int) .IntArray
        (i32be (1 : Int) ++ (encodeAll i32be [7] ++ []))
      = .ok (.vSeq [.vInt 7]) [] := by
  simpa using c8_amended [7] [] (by decide) (by decide)

/-- C10: `write_string` emits a two-byte big-endian prefix whose value is the
string's byte length reduced modulo `2^16`, followed by all bytes of the
string; hence for byte lengths of at least `2^16` the prefix value differs
from the number of bytes that follow it. -/
theorem c10_write_string (s : List Nat) :
    writeString s = u16be (s.length % 65536) ++ s
    ∧ parseU16 (writeString s) = .ok (s.length % 65536) s
    ∧ (65536 ≤ s.length → s.length % 65536 ≠ s.length) := by
  refine ⟨rfl, ?_, ?_⟩
  · simp only [writeString, u16be, List.cons_append, List.nil_append, parseU16]
    have h : s.length % 65536 / 256 % 256 * 256 + s.length % 65536 % 256
        = s.length % 65536 := by omega
    rw [h]
  · intro h
    omega

/-- C10 witness: the theorem at a 65536-byte string, where the wrapped
prefix (0) no longer equals the number of following bytes. -/
theorem c10_write_string_witness :
    parseU16 (writeString (List.replicate 65536 0))
      = .ok ((List.replicate 65536 (0 : Nat)).length % 65536)
          (List.replicate 65536 0)
    ∧ (List.replicate 65536 (0 : Nat)).length % 65536
        ≠ (List.replicate 65536 (0 : Nat)).length :=
  ⟨(c10_write_string (List.replicate 65536 0)).2.1,
   (c10_write_string (List.replicate 65536 0)).2.2
     (by simp only [List.length_replicate, le_refl])⟩
